import Mathlib

/-!
Verification development for the HeapDumpStarDiver heap-object projection
engine (`src/main.rs`, `src/util.rs`).  The Rust code is shallowly embedded:
byte buffers are `List Nat` (one entry per byte), the dump's numeric
identities are `Nat`, hash maps are association lists with first-match
lookup (a fresh insertion is consed on, matching `HashMap::insert`
overwrite semantics under `lookup`), fallible code (Rust `unwrap`/`panic!`)
returns `Option`, and IEEE float values are carried as their raw big-endian
bit patterns (`Nat`), which is exactly what the decoder reads from the dump.
-/

set_option autoImplicit false

namespace HeapDiver

/-- Association-list map with `HashMap`-style overwrite-on-insert semantics. -/
abbrev Map (κ ν : Type) : Type := List (κ × ν)

def lookup {κ ν : Type} [DecidableEq κ] : Map κ ν → κ → Option ν
  | [], _ => none
  | (k, v) :: rest, key => if k = key then some v else lookup rest key

def mapInsert {κ ν : Type} [DecidableEq κ] (m : Map κ ν) (key : κ) (val : ν) : Map κ ν :=
  (key, val) :: m

/-- `jvm_hprof::heap_dump::PrimitiveArrayType`: the element type of a primitive array. -/
inductive PrimitiveArrayType
  | boolean
  | char
  | float
  | double
  | byte
  | short
  | int
  | long
deriving DecidableEq

/-- `jvm_hprof::heap_dump::FieldType`: the declared type of a field descriptor. -/
inductive FieldType
  | objectId
  | boolean
  | char
  | float
  | double
  | byte
  | short
  | int
  | long
deriving DecidableEq

/-- `jvm_hprof::heap_dump::FieldDescriptor`: a declared field's name id and type. -/
structure FieldDescriptor where
  name_id : Nat
  field_type : FieldType
deriving DecidableEq

/-- `jvm_hprof::heap_dump::FieldValue`.  `objectId none` is the null reference
(the dump's zero identity); `float`/`double` carry raw bit patterns. -/
inductive FieldValue
  | objectId : Option Nat → FieldValue
  | boolean : Bool → FieldValue
  | char : Nat → FieldValue
  | float : Nat → FieldValue
  | double : Nat → FieldValue
  | byte : Int → FieldValue
  | short : Int → FieldValue
  | int : Int → FieldValue
  | long : Int → FieldValue
deriving DecidableEq

/-- Big-endian interpretation of a byte list. -/
def beNat (bs : List Nat) : Nat := bs.foldl (fun acc b => acc * 256 + b % 256) 0

/-- Two's-complement reinterpretation of an unsigned `bits`-wide value. -/
def toSigned (n bits : Nat) : Int :=
  if n < 2 ^ (bits - 1) then (n : Int) else (n : Int) - 2 ^ bits

/-- Byte width consumed by one field of the given type: the dump's declared
identity size for reference fields, the fixed JVM width otherwise
(spec section 4.3; `jvm_hprof`'s per-type widths). -/
def typeWidth : FieldType → Nat → Nat
  | .objectId, idSize => idSize
  | .boolean, _ => 1
  | .byte, _ => 1
  | .char, _ => 2
  | .short, _ => 2
  | .float, _ => 4
  | .int, _ => 4
  | .double, _ => 8
  | .long, _ => 8

/-- Typed view of the `typeWidth` bytes just consumed, per field type. -/
def decodeValue : FieldType → Nat → FieldValue
  | .objectId, n => .objectId (if n = 0 then none else some n)
  | .boolean, n => .boolean (n != 0)
  | .char, n => .char n
  | .float, n => .float n
  | .double, n => .double n
  | .byte, n => .byte (toSigned n 8)
  | .short, n => .short (toSigned n 16)
  | .int, n => .int (toSigned n 32)
  | .long, n => .long (toSigned n 64)

/-- Modelled from the spec: `FieldType::parse_value` of the external
heap-dump-record parser (`jvm_hprof`), as specified at its interface in
section 4.3 — consume exactly the field's declared width from the front of
the buffer (identity width for references), fail when fewer bytes remain. -/
def parse_value (ft : FieldType) (input : List Nat) (idSize : Nat) :
    Option (FieldValue × List Nat) :=
  let w := typeWidth ft idSize
  if w ≤ input.length then
    some (decodeValue ft (beNat (input.take w)), input.drop w)
  else
    none

/-- Total bytes implied by a descriptor list's declared widths. -/
def sumWidths (fds : List FieldDescriptor) (idSize : Nat) : Nat :=
  (fds.map (fun fd => typeWidth fd.field_type idSize)).sum

/-- The sequential decode loop of `add_instance_values` (main.rs:114-119),
isolated: parse each descriptor in order, threading the remaining input.
`none` models the `unwrap` panic on a parse failure. -/
def decodeFields : List FieldDescriptor → List Nat → Nat →
    Option (List FieldValue × List Nat)
  | [], input, _ => some ([], input)
  | fd :: rest, input, idSize =>
    match parse_value fd.field_type input idSize with
    | none => none
    | some (v, input') =>
      match decodeFields rest input' idSize with
      | none => none
      | some (vs, r) => some (v :: vs, r)

/-- `ExtendedFieldValue` (main.rs:96-101). -/
inductive ExtendedFieldValue
  | fieldValue : FieldValue → ExtendedFieldValue
  | objectReference : Nat → ExtendedFieldValue
  | primitiveArrayReference : Nat → ExtendedFieldValue
deriving DecidableEq

/-- `LoadClass` record: class object id and class name id. -/
structure LoadClass where
  class_obj_id : Nat
  class_name_id : Nat
deriving DecidableEq

/-- The `Class` heap-dump sub-record (the parts this engine reads). -/
structure ClassSubRecord where
  obj_id : Nat
  super_class_obj_id : Option Nat
  instance_field_descriptors : List FieldDescriptor
deriving DecidableEq

/-- `jvm_hprof::EzClass`: class metadata with the resolved name. -/
structure EzClass where
  obj_id : Nat
  name : String
  super_class_obj_id : Option Nat
  instance_field_descriptors : List FieldDescriptor
deriving DecidableEq

/-- Modelled from the spec: `EzClass::from_class` of the external parser —
resolve the class-object id through the load-class table to a name id, then
through the string table; an unresolvable name falls back to a fixed
sentinel text rather than failing (spec section 4.1). -/
def EzClass.from_class (c : ClassSubRecord) (load_classes : Map Nat LoadClass)
    (utf8 : Map Nat String) : EzClass :=
  { obj_id := c.obj_id
    name :=
      match lookup load_classes c.obj_id with
      | some lc => (lookup utf8 lc.class_name_id).getD "(class name not found)"
      | none => "(class name not found)"
    super_class_obj_id := c.super_class_obj_id
    instance_field_descriptors := c.instance_field_descriptors }

def MISSING_UTF8 : String := "(missing utf8)"

/-- The push-effect of the reference-classification chain in
`add_instance_values` (main.rs:126-171): the `map`/`or_else` cascade over
the three index maps.  A null reference pushes `ObjectReference(Id::from(0))`;
an id found in the object-to-class map pushes `ObjectReference`; otherwise an
id found in the primitive-array map pushes `PrimitiveArrayReference`; a
class-object reference and an unresolved id push nothing. -/
def refPush (obj_id_to_class_obj_id : Map Nat Nat)
    (prim_array_obj_id_to_type : Map Nat PrimitiveArrayType)
    (classes : Map Nat EzClass) (r : Option Nat) : List ExtendedFieldValue :=
  match r with
  | none => [.objectReference 0]
  | some rid =>
    match lookup obj_id_to_class_obj_id rid with
    | some _ => [.objectReference rid]
    | none =>
      match lookup prim_array_obj_id_to_type rid with
      | some _ => [.primitiveArrayReference rid]
      | none =>
        match lookup classes rid with
        | some _ => []
        | none => []

/-- `add_instance_values` (main.rs:103-198): decode the instance's raw field
bytes against the descriptor list in order, and append each decoded value
(classified, for references) to the per-field accumulated sequence.
`none` models the `unwrap` panic when bytes run out mid-field. -/
def add_instance_values
    (field_val_map : Map String (List ExtendedFieldValue))
    (field_descriptors : List FieldDescriptor)
    (field_val_input : List Nat)
    (idSize : Nat)
    (utf8 : Map Nat String)
    (obj_id_to_class_obj_id : Map Nat Nat)
    (classes : Map Nat EzClass)
    (prim_array_obj_id_to_type : Map Nat PrimitiveArrayType) :
    Option (Map String (List ExtendedFieldValue)) :=
  match field_descriptors with
  | [] => some field_val_map
  | fd :: rest =>
    match parse_value fd.field_type field_val_input idSize with
    | none => none
    | some (field_val, input') =>
      let field_name := (lookup utf8 fd.name_id).getD MISSING_UTF8
      let field_val_vec := (lookup field_val_map field_name).getD []
      let new_vec :=
        match field_val with
        | .objectId r =>
          field_val_vec ++
            refPush obj_id_to_class_obj_id prim_array_obj_id_to_type classes r
        | v => field_val_vec ++ [.fieldValue v]
      add_instance_values (mapInsert field_val_map field_name new_vec) rest
        input' idSize utf8 obj_id_to_class_obj_id classes
        prim_array_obj_id_to_type

/-- The five reference categories of spec section 4.4. -/
inductive RefCategory
  | nullRef
  | instanceRef : Nat → RefCategory
  | primArrayRef : PrimitiveArrayType → RefCategory
  | classObjRef
  | unresolvedRef
deriving DecidableEq

/-- The classification decision implemented by the `map`/`or_else` chain of
`add_instance_values` (main.rs:126-171): object-to-class map first, then the
primitive-array map, then the class table, else unresolved. -/
def classifyRef (obj_id_to_class_obj_id : Map Nat Nat)
    (prim_array_obj_id_to_type : Map Nat PrimitiveArrayType)
    (classes : Map Nat EzClass) (r : Option Nat) : RefCategory :=
  match r with
  | none => .nullRef
  | some rid =>
    match lookup obj_id_to_class_obj_id rid with
    | some cid => .instanceRef cid
    | none =>
      match lookup prim_array_obj_id_to_type rid with
      | some t => .primArrayRef t
      | none =>
        match lookup classes rid with
        | some _ => .classObjRef
        | none => .unresolvedRef

/-- The five category buckets, data-free. -/
inductive RefBucket
  | nullB
  | instanceB
  | primArrayB
  | classObjB
  | unresolvedB
deriving DecidableEq

def bucketOf : RefCategory → RefBucket
  | .nullRef => .nullB
  | .instanceRef _ => .instanceB
  | .primArrayRef _ => .primArrayB
  | .classObjRef => .classObjB
  | .unresolvedRef => .unresolvedB

/-- Which bucket a decoded reference value falls in, written as the claim's
first-match-first conditions over the three index maps. -/
def bucketApplies (obj_id_to_class_obj_id : Map Nat Nat)
    (prim_array_obj_id_to_type : Map Nat PrimitiveArrayType)
    (classes : Map Nat EzClass) (r : Option Nat) : RefBucket → Prop
  | .nullB => r = none
  | .instanceB => ∃ rid, r = some rid ∧ (lookup obj_id_to_class_obj_id rid).isSome
  | .primArrayB => ∃ rid, r = some rid ∧ lookup obj_id_to_class_obj_id rid = none ∧
      (lookup prim_array_obj_id_to_type rid).isSome
  | .classObjB => ∃ rid, r = some rid ∧ lookup obj_id_to_class_obj_id rid = none ∧
      lookup prim_array_obj_id_to_type rid = none ∧ (lookup classes rid).isSome
  | .unresolvedB => ∃ rid, r = some rid ∧ lookup obj_id_to_class_obj_id rid = none ∧
      lookup prim_array_obj_id_to_type rid = none ∧ lookup classes rid = none

/-- The type label computed for an `ObjectReference` entry by the pivot
(main.rs:406-414): id 0 is labelled `"null"`, otherwise the owning class's
resolved name is looked up through both maps (`unwrap` panics become `none`). -/
def objRefTypeLabel (classes : Map Nat EzClass)
    (obj_id_to_class_obj_id : Map Nat Nat) (rid : Nat) : Option String :=
  if rid = 0 then some "null"
  else
    (lookup obj_id_to_class_obj_id rid).bind
      (fun cid => (lookup classes cid).map (fun c => c.name))

/-- `PrimitiveArrayType::java_type_name` of the external parser. -/
def java_type_name : PrimitiveArrayType → String
  | .boolean => "boolean"
  | .char => "char"
  | .float => "float"
  | .double => "double"
  | .byte => "byte"
  | .short => "short"
  | .int => "int"
  | .long => "long"

/-- The type label computed for a `PrimitiveArrayReference` entry by the
pivot (main.rs:431-444): the bare element type name, `"null"` when the id is
absent from the primitive-array map. -/
def primRefTypeLabel (prim_array_obj_id_to_type : Map Nat PrimitiveArrayType)
    (rid : Nat) : String :=
  match lookup prim_array_obj_id_to_type rid with
  | some .boolean => "boolean"
  | some .char => "char"
  | some .float => "float"
  | some .double => "double"
  | some .byte => "byte"
  | some .short => "short"
  | some .int => "int"
  | some .long => "long"
  | none => "null"

/-- One pivoted arrow column (the array kinds built in main.rs:400-519). -/
inductive Column
  | structCol : List Nat → List String → Column
  | u64Col : List Nat → Column
  | i32Col : List Int → Column
  | i64Col : List Int → Column
  | boolCol : List Bool → Column
  | u16Col : List Nat → Column
  | f32Col : List Nat → Column
  | f64Col : List Nat → Column
  | i8Col : List Int → Column
  | i16Col : List Int → Column
deriving DecidableEq

def Column.length : Column → Nat
  | .structCol ids _ => ids.length
  | .u64Col v => v.length
  | .i32Col v => v.length
  | .i64Col v => v.length
  | .boolCol v => v.length
  | .u16Col v => v.length
  | .f32Col v => v.length
  | .f64Col v => v.length
  | .i8Col v => v.length
  | .i16Col v => v.length

/-- Per-element id extraction for an `ObjectReference`-headed column
(main.rs:402-405): catch-all default 0. -/
def objRefIdExtract : ExtendedFieldValue → Nat
  | .objectReference rid => rid
  | _ => 0

/-- Per-element label extraction for an `ObjectReference`-headed column
(main.rs:406-414): catch-all default `"null"`. -/
def objRefLabelExtract (classes : Map Nat EzClass)
    (obj_id_to_class_obj_id : Map Nat Nat) : ExtendedFieldValue → Option String
  | .objectReference rid => objRefTypeLabel classes obj_id_to_class_obj_id rid
  | _ => some "null"

/-- Per-element id extraction for a `PrimitiveArrayReference`-headed column
(main.rs:427-430): catch-all default 0. -/
def primRefIdExtract : ExtendedFieldValue → Nat
  | .primitiveArrayReference rid => rid
  | _ => 0

/-- Per-element label extraction for a `PrimitiveArrayReference`-headed
column (main.rs:431-444): catch-all default `"null"`. -/
def primRefLabelExtract (prim_array_obj_id_to_type : Map Nat PrimitiveArrayType) :
    ExtendedFieldValue → String
  | .primitiveArrayReference rid => primRefTypeLabel prim_array_obj_id_to_type rid
  | _ => "null"

/-- Extraction for a `FieldValue::ObjectId`-headed column (main.rs:456-463);
`val.unwrap()` on a null reference panics (`none`), catch-all default 0. -/
def u64Extract : ExtendedFieldValue → Option Nat
  | .fieldValue (.objectId (some rid)) => some rid
  | .fieldValue (.objectId none) => none
  | _ => some 0

def i32Extract : ExtendedFieldValue → Int
  | .fieldValue (.int v) => v
  | _ => 0

def i64Extract : ExtendedFieldValue → Int
  | .fieldValue (.long v) => v
  | _ => 0

def boolExtract : ExtendedFieldValue → Bool
  | .fieldValue (.boolean v) => v
  | _ => false

def u16Extract : ExtendedFieldValue → Nat
  | .fieldValue (.char v) => v
  | _ => 0

def f32Extract : ExtendedFieldValue → Nat
  | .fieldValue (.float v) => v
  | _ => 0

def f64Extract : ExtendedFieldValue → Nat
  | .fieldValue (.double v) => v
  | _ => 0

def i8Extract : ExtendedFieldValue → Int
  | .fieldValue (.byte v) => v
  | _ => 0

def i16Extract : ExtendedFieldValue → Int
  | .fieldValue (.short v) => v
  | _ => 0

/-- The pivot of one field's accumulated sequence into one column
(main.rs:400-520): the column kind and the extraction are selected by
matching `field_val_vec[0]`; every element is then mapped through the
selected extraction whose catch-all arm substitutes a default.  `none`
models the panics (empty sequence index, `unwrap` in the label lookups). -/
def pivotColumn (classes : Map Nat EzClass)
    (obj_id_to_class_obj_id : Map Nat Nat)
    (prim_array_obj_id_to_type : Map Nat PrimitiveArrayType)
    (field_val_vec : List ExtendedFieldValue) : Option Column :=
  match field_val_vec with
  | [] => none
  | v0 :: _ =>
    match v0 with
    | .objectReference _ =>
      (field_val_vec.mapM (objRefLabelExtract classes obj_id_to_class_obj_id)).map
        (fun types => .structCol (field_val_vec.map objRefIdExtract) types)
    | .primitiveArrayReference _ =>
      some (.structCol (field_val_vec.map primRefIdExtract)
        (field_val_vec.map (primRefLabelExtract prim_array_obj_id_to_type)))
    | .fieldValue (.objectId _) => (field_val_vec.mapM u64Extract).map .u64Col
    | .fieldValue (.int _) => some (.i32Col (field_val_vec.map i32Extract))
    | .fieldValue (.long _) => some (.i64Col (field_val_vec.map i64Extract))
    | .fieldValue (.boolean _) => some (.boolCol (field_val_vec.map boolExtract))
    | .fieldValue (.char _) => some (.u16Col (field_val_vec.map u16Extract))
    | .fieldValue (.float _) => some (.f32Col (field_val_vec.map f32Extract))
    | .fieldValue (.double _) => some (.f64Col (field_val_vec.map f64Extract))
    | .fieldValue (.byte _) => some (.i8Col (field_val_vec.map i8Extract))
    | .fieldValue (.short _) => some (.i16Col (field_val_vec.map i16Extract))

/-- The per-class column build of the emission loop (main.rs:393-558): walk
the schema's field names in order; a name absent from the accumulated map
is skipped, a present one pivots into a column (a pivot panic kills the
whole run, hence `none`). -/
def buildColumns (classes : Map Nat EzClass)
    (obj_id_to_class_obj_id : Map Nat Nat)
    (prim_array_obj_id_to_type : Map Nat PrimitiveArrayType)
    (field_val_map : Map String (List ExtendedFieldValue)) :
    List String → Option (List Column)
  | [] => some []
  | name :: rest =>
    match lookup field_val_map name with
    | none =>
      buildColumns classes obj_id_to_class_obj_id prim_array_obj_id_to_type
        field_val_map rest
    | some vec =>
      match pivotColumn classes obj_id_to_class_obj_id prim_array_obj_id_to_type vec with
      | none => none
      | some col =>
        match buildColumns classes obj_id_to_class_obj_id
            prim_array_obj_id_to_type field_val_map rest with
        | none => none
        | some cols => some (col :: cols)

/-- The emission guard (main.rs:560-578): an empty column list is skipped,
a column list with any length disagreeing with the first column's length is
skipped whole; otherwise the batch is emitted in full. -/
def emitBatch : List Column → Option (List Column)
  | [] => none
  | c0 :: rest =>
    if (c0 :: rest).any (fun c => c.length != c0.length) then none
    else some (c0 :: rest)

/-- One class's trip through the emission loop: build the columns from its
schema field names, then apply the emission guard. -/
def processClass (classes : Map Nat EzClass)
    (obj_id_to_class_obj_id : Map Nat Nat)
    (prim_array_obj_id_to_type : Map Nat PrimitiveArrayType)
    (field_val_map : Map String (List ExtendedFieldValue))
    (schema_field_names : List String) : Option (List Column) :=
  (buildColumns classes obj_id_to_class_obj_id prim_array_obj_id_to_type
    field_val_map schema_field_names).bind emitBatch

/-- The schema-cache update of pass 2 (main.rs:309-322): insert only when
the class id is not yet present; `gen` stands for the schema generator
applied to the first instance's bytes. -/
def updateSchemas {α : Type} (gen : Nat → List Nat → α) (schemas : Map Nat α)
    (class_obj_id : Nat) (fields : List Nat) : Map Nat α :=
  if (lookup schemas class_obj_id).isSome then schemas
  else mapInsert schemas class_obj_id (gen class_obj_id fields)

/-- The schema cache after a stream of instance records
(class id, field bytes), in encounter order. -/
def foldSchemas {α : Type} (gen : Nat → List Nat → α)
    (insts : List (Nat × List Nat)) : Map Nat α :=
  insts.foldl (fun m i => updateSchemas gen m i.1 i.2) []

/-- Heap-dump sub-records (the constructors this engine inspects). -/
inductive SubRecord
  | classRec : ClassSubRecord → SubRecord
  | instanceRec : Nat → Nat → List Nat → SubRecord
  | objectArray : Nat → Nat → SubRecord
  | primitiveArray : Nat → PrimitiveArrayType → SubRecord
  | otherSub
deriving DecidableEq

/-- Top-level hprof records (the tags this engine inspects). -/
inductive Record
  | heapDumpSegment : List SubRecord → Record
  | utf8Rec : Nat → String → Record
  | loadClassRec : LoadClass → Record
  | otherRec
deriving DecidableEq

/-- The Identity Index: the maps built by pass 1 of
`dump_objects_to_parquet` (main.rs:200-259). -/
structure IdentityIndex where
  load_classes : Map Nat LoadClass
  utf8 : Map Nat String
  classes : Map Nat EzClass
  obj_id_to_class_obj_id : Map Nat Nat
  prim_array_obj_id_to_type : Map Nat PrimitiveArrayType
deriving DecidableEq

def emptyIndex : IdentityIndex := ⟨[], [], [], [], []⟩

/-- Pass-1 effect of one heap-dump sub-record (main.rs:228-245). -/
def pass1Sub (st : IdentityIndex) : SubRecord → IdentityIndex
  | .classRec c =>
    { st with classes :=
        mapInsert st.classes c.obj_id (EzClass.from_class c st.load_classes st.utf8) }
  | .instanceRec oid cid _ =>
    { st with obj_id_to_class_obj_id := mapInsert st.obj_id_to_class_obj_id oid cid }
  | .objectArray oid acid =>
    { st with obj_id_to_class_obj_id := mapInsert st.obj_id_to_class_obj_id oid acid }
  | .primitiveArray oid t =>
    { st with prim_array_obj_id_to_type := mapInsert st.prim_array_obj_id_to_type oid t }
  | .otherSub => st

/-- Pass-1 effect of one top-level record (main.rs:220-259). -/
def pass1Record (st : IdentityIndex) : Record → IdentityIndex
  | .heapDumpSegment subs => subs.foldl pass1Sub st
  | .utf8Rec nid s => { st with utf8 := mapInsert st.utf8 nid s }
  | .loadClassRec lc =>
    { st with load_classes := mapInsert st.load_classes lc.class_obj_id lc }
  | .otherRec => st

/-- The identity-resolution pass over a record stream, from fresh maps. -/
def pass1 (records : List Record) : IdentityIndex :=
  records.foldl pass1Record emptyIndex

/-- A run of the pass-1 loop as a step relation: the imperative for-each,
one record per step, mutating the map state. -/
inductive Pass1Run : IdentityIndex → List Record → IdentityIndex → Prop
  | nil (st : IdentityIndex) : Pass1Run st [] st
  | cons (st : IdentityIndex) (r : Record) (rs : List Record) (st' : IdentityIndex) :
      Pass1Run (pass1Record st r) rs st' → Pass1Run st (r :: rs) st'

/-- Mutable per-class state of pass 2: the schema cache and the per-class
accumulated field values. -/
structure Pass2Acc (α : Type) where
  schemas : Map Nat α
  class_field_val_map : Map Nat (Map String (List ExtendedFieldValue))

/-- Pass-2 effect of one heap-dump sub-record (main.rs:288-383).  `none`
models the fatal panics: the unknown-class `panic!` (main.rs:296-303), the
descriptor-table `expect` (main.rs:305-307), and a decode failure inside
`add_instance_values`.  The `ObjectArray` arm of the source is entirely
commented out, so object arrays are skipped; `Class` and `PrimitiveArray`
sub-records do not touch the per-class state. -/
def pass2Sub {α : Type} (gen : Nat → List Nat → α) (classes : Map Nat EzClass)
    (class_instance_field_descriptors : Map Nat (List FieldDescriptor))
    (idSize : Nat) (utf8 : Map Nat String)
    (obj_id_to_class_obj_id : Map Nat Nat)
    (prim_array_obj_id_to_type : Map Nat PrimitiveArrayType)
    (acc : Pass2Acc α) : SubRecord → Option (Pass2Acc α)
  | .classRec _ => some acc
  | .instanceRec _ cid bytes =>
    match lookup classes cid with
    | none => none
    | some _ =>
      match lookup class_instance_field_descriptors cid with
      | none => none
      | some fds =>
        let schemas' := updateSchemas gen acc.schemas cid bytes
        let fvm := (lookup acc.class_field_val_map cid).getD []
        match add_instance_values fvm fds bytes idSize utf8
            obj_id_to_class_obj_id classes prim_array_obj_id_to_type with
        | none => none
        | some fvm' =>
          some ⟨schemas', mapInsert acc.class_field_val_map cid fvm'⟩
  | .objectArray _ _ => some acc
  | .primitiveArray _ _ => some acc
  | .otherSub => some acc

/-- Pass 2 over a sub-record stream, halting at the first fatal condition. -/
def pass2 {α : Type} (gen : Nat → List Nat → α) (classes : Map Nat EzClass)
    (class_instance_field_descriptors : Map Nat (List FieldDescriptor))
    (idSize : Nat) (utf8 : Map Nat String)
    (obj_id_to_class_obj_id : Map Nat Nat)
    (prim_array_obj_id_to_type : Map Nat PrimitiveArrayType) :
    List SubRecord → Pass2Acc α → Option (Pass2Acc α)
  | [], acc => some acc
  | s :: rest, acc =>
    match pass2Sub gen classes class_instance_field_descriptors idSize utf8
        obj_id_to_class_obj_id prim_array_obj_id_to_type acc s with
    | none => none
    | some acc' =>
      pass2 gen classes class_instance_field_descriptors idSize utf8
        obj_id_to_class_obj_id prim_array_obj_id_to_type rest acc'

/-- The projection run: pass 2 then the per-class emission loop
(main.rs:389-579).  A fatal pass-2 condition yields `none`: no output at
all for the run.  `schemaNames` projects a cached schema to its ordered
field names. -/
def runProjection {α : Type} (gen : Nat → List Nat → α)
    (classes : Map Nat EzClass)
    (class_instance_field_descriptors : Map Nat (List FieldDescriptor))
    (idSize : Nat) (utf8 : Map Nat String)
    (obj_id_to_class_obj_id : Map Nat Nat)
    (prim_array_obj_id_to_type : Map Nat PrimitiveArrayType)
    (subs : List SubRecord) (schemaNames : α → List String) :
    Option (List (Nat × Option (List Column))) :=
  (pass2 gen classes class_instance_field_descriptors idSize utf8
      obj_id_to_class_obj_id prim_array_obj_id_to_type subs ⟨[], []⟩).map
    (fun acc =>
      acc.schemas.map (fun p =>
        (p.1,
          processClass classes obj_id_to_class_obj_id prim_array_obj_id_to_type
            ((lookup acc.class_field_val_map p.1).getD []) (schemaNames p.2))))

/-- Arrow column data types as used by `generate_schema_from_type`
(util.rs); `structIdType` is the two-column struct of an unsigned 64-bit id
and a text type label. -/
inductive DataT
  | uint64
  | utf8T
  | structIdType
  | nullT
  | booleanT
  | uint16
  | float32
  | float64
  | int8
  | int16
  | int32
  | int64
deriving DecidableEq

/-- One field of an arrow schema: name, data type, nullable flag. -/
structure SchemaField where
  name : String
  dtype : DataT
  nullable : Bool
deriving DecidableEq

/-- The schema-field list built by `generate_schema_from_type`
(util.rs:38-186) for one observed field value: a leading `instance_id`
column, then at most one column for the field, selected by the value's
variant.  A resolved instance or primitive-array reference contributes the
id/type struct; a null reference contributes a nullable `Null` column; a
class-object reference and an unresolved reference contribute nothing. -/
def generate_schema_from_type (field_val : FieldValue) (field_name : String)
    (obj_id_to_class_obj_id : Map Nat Nat) (classes : Map Nat EzClass)
    (prim_array_obj_id_to_type : Map Nat PrimitiveArrayType) : List SchemaField :=
  ⟨"instance_id", .uint64, false⟩ ::
    (match field_val with
    | .objectId (some rid) =>
      match lookup obj_id_to_class_obj_id rid with
      | some _ => [⟨field_name, .structIdType, false⟩]
      | none =>
        match lookup prim_array_obj_id_to_type rid with
        | some _ => [⟨field_name, .structIdType, false⟩]
        | none =>
          match lookup classes rid with
          | some _ => []
          | none => []
    | .objectId none => [⟨field_name, .nullT, true⟩]
    | .boolean _ => [⟨field_name, .booleanT, false⟩]
    | .char _ => [⟨field_name, .uint16, false⟩]
    | .float _ => [⟨field_name, .float32, false⟩]
    | .double _ => [⟨field_name, .float64, false⟩]
    | .byte _ => [⟨field_name, .int8, false⟩]
    | .short _ => [⟨field_name, .int16, false⟩]
    | .int _ => [⟨field_name, .int32, false⟩]
    | .long _ => [⟨field_name, .int64, false⟩])

theorem sumWidths_nil (idSize : Nat) : sumWidths [] idSize = 0 := rfl

theorem sumWidths_cons (fd : FieldDescriptor) (fds : List FieldDescriptor) (idSize : Nat) :
    sumWidths (fd :: fds) idSize = typeWidth fd.field_type idSize + sumWidths fds idSize := by
  simp [sumWidths]

theorem parse_value_of_le {ft : FieldType} {input : List Nat} {idSize : Nat}
    (hw : typeWidth ft idSize ≤ input.length) :
    parse_value ft input idSize =
      some (decodeValue ft (beNat (input.take (typeWidth ft idSize))),
        input.drop (typeWidth ft idSize)) := by
  simp [parse_value, hw]

theorem parse_value_of_lt {ft : FieldType} {input : List Nat} {idSize : Nat}
    (hw : ¬ typeWidth ft idSize ≤ input.length) :
    parse_value ft input idSize = none := by
  simp [parse_value, hw]

theorem decodeFields_some_length (fds : List FieldDescriptor) :
    ∀ (input : List Nat) (idSize : Nat) (vs : List FieldValue) (rest : List Nat),
      decodeFields fds input idSize = some (vs, rest) →
      sumWidths fds idSize + rest.length = input.length := by
  induction fds with
  | nil =>
    intro input idSize vs rest h
    simp only [decodeFields, Option.some.injEq, Prod.mk.injEq] at h
    rw [sumWidths_nil, ← h.2]
    omega
  | cons fd fds ih =>
    intro input idSize vs rest h
    by_cases hw : typeWidth fd.field_type idSize ≤ input.length
    · cases hdf : decodeFields fds (input.drop (typeWidth fd.field_type idSize)) idSize with
      | none =>
        simp only [decodeFields, parse_value_of_le hw, hdf] at h
        exact Option.noConfusion h
      | some p =>
        obtain ⟨vs', r⟩ := p
        simp only [decodeFields, parse_value_of_le hw, hdf, Option.some.injEq,
          Prod.mk.injEq] at h
        have hlen := ih _ idSize _ _ hdf
        rw [List.length_drop] at hlen
        rw [sumWidths_cons, ← h.2]
        omega
    · simp only [decodeFields, parse_value_of_lt hw] at h
      exact Option.noConfusion h

theorem decodeFields_none_iff (fds : List FieldDescriptor) :
    ∀ (input : List Nat) (idSize : Nat),
      decodeFields fds input idSize = none ↔ input.length < sumWidths fds idSize := by
  induction fds with
  | nil =>
    intro input idSize
    simp [decodeFields, sumWidths_nil]
  | cons fd fds ih =>
    intro input idSize
    rw [sumWidths_cons]
    by_cases hw : typeWidth fd.field_type idSize ≤ input.length
    · cases hdf : decodeFields fds (input.drop (typeWidth fd.field_type idSize)) idSize with
      | none =>
        have hlt := (ih _ idSize).mp hdf
        rw [List.length_drop] at hlt
        simp only [decodeFields, parse_value_of_le hw, hdf]
        constructor
        · intro _; omega
        · intro _; trivial
      | some p =>
        obtain ⟨vs', r⟩ := p
        have hge : ¬ (input.drop (typeWidth fd.field_type idSize)).length <
            sumWidths fds idSize := by
          intro hlt
          rw [← ih _ idSize] at hlt
          rw [hlt] at hdf
          cases hdf
        rw [List.length_drop] at hge
        simp only [decodeFields, parse_value_of_le hw, hdf]
        constructor
        · intro hcontra; cases hcontra
        · intro hlt; omega
    · simp only [decodeFields, parse_value_of_lt hw]
      constructor
      · intro _; omega
      · intro _; trivial

theorem add_instance_values_isSome (fds : List FieldDescriptor) :
    ∀ (fvm : Map String (List ExtendedFieldValue)) (input : List Nat) (idSize : Nat)
      (utf8 : Map Nat String) (objMap : Map Nat Nat) (classes : Map Nat EzClass)
      (primMap : Map Nat PrimitiveArrayType),
      (add_instance_values fvm fds input idSize utf8 objMap classes primMap).isSome ↔
        sumWidths fds idSize ≤ input.length := by
  induction fds with
  | nil =>
    intro fvm input idSize u o c p
    simp [add_instance_values, sumWidths_nil]
  | cons fd fds ih =>
    intro fvm input idSize u o c p
    rw [sumWidths_cons]
    by_cases hw : typeWidth fd.field_type idSize ≤ input.length
    · simp only [add_instance_values, parse_value_of_le hw]
      rw [ih]
      rw [List.length_drop]
      omega
    · simp only [add_instance_values, parse_value_of_lt hw, Option.isSome_none,
        Bool.false_eq_true, false_iff]
      omega

/-- C1: decoding an instance's raw field byte blob against its resolved
field-descriptor list proceeds sequentially, each field advancing the cursor
by its declared width (the identity width for reference fields); a
successful decode consumes exactly the sum of the declared widths, and when
the remaining bytes are insufficient the decode of the whole instance fails
detectably (`none`, the source's `unwrap` panic) rather than silently
truncating or padding. -/
theorem decode_consumes_exact_widths
    (fds : List FieldDescriptor) (input : List Nat) (idSize : Nat) :
    typeWidth FieldType.objectId idSize = idSize
    ∧ (∀ ft v rest', parse_value ft input idSize = some (v, rest') →
        typeWidth ft idSize + rest'.length = input.length)
    ∧ (∀ vs rest, decodeFields fds input idSize = some (vs, rest) →
        sumWidths fds idSize + rest.length = input.length)
    ∧ (decodeFields fds input idSize = none ↔ input.length < sumWidths fds idSize)
    ∧ (∀ fvm utf8 objMap classes primMap,
        (add_instance_values fvm fds input idSize utf8 objMap classes primMap).isSome ↔
          sumWidths fds idSize ≤ input.length) := by
  refine ⟨rfl, ?_, ?_, decodeFields_none_iff fds input idSize, ?_⟩
  · intro ft v rest' h
    by_cases hw : typeWidth ft idSize ≤ input.length
    · rw [parse_value_of_le hw] at h
      simp only [Option.some.injEq, Prod.mk.injEq] at h
      rw [← h.2, List.length_drop]
      omega
    · rw [parse_value_of_lt hw] at h
      cases h
  · intro vs rest h
    exact decodeFields_some_length fds input idSize vs rest h
  · intro fvm u o c p
    exact add_instance_values_isSome fds fvm input idSize u o c p

/-- Witness for C1 at a concrete one-field descriptor list and a four-byte
blob: the decode consumes all four bytes. -/
theorem decode_consumes_exact_widths_witness :
    sumWidths [⟨1, FieldType.int⟩] 4 + ([] : List Nat).length =
      ([0, 0, 0, 7] : List Nat).length :=
  (decode_consumes_exact_widths [⟨1, FieldType.int⟩] [0, 0, 0, 7] 4).2.2.1
    [FieldValue.int 7] [] (by decide)

theorem bucketApplies_iff (objMap : Map Nat Nat) (primMap : Map Nat PrimitiveArrayType)
    (classes : Map Nat EzClass) (r : Option Nat) (b : RefBucket) :
    bucketApplies objMap primMap classes r b ↔
      b = bucketOf (classifyRef objMap primMap classes r) := by
  cases r with
  | none => cases b <;> simp [bucketApplies, classifyRef, bucketOf]
  | some rid =>
    cases hobj : lookup objMap rid with
    | some cid => cases b <;> simp [bucketApplies, classifyRef, bucketOf, hobj]
    | none =>
      cases hprim : lookup primMap rid with
      | some t => cases b <;> simp [bucketApplies, classifyRef, bucketOf, hobj, hprim]
      | none =>
        cases hcls : lookup classes rid with
        | some c =>
          cases b <;> simp [bucketApplies, classifyRef, bucketOf, hobj, hprim, hcls]
        | none =>
          cases b <;> simp [bucketApplies, classifyRef, bucketOf, hobj, hprim, hcls]

/-- C2: reference classification is total and deterministic — every decoded
reference value falls in exactly one of the five categories, resolved
first-match-first against the object-to-class map, then the primitive-array
map, then the class table; the null sentinel is recorded as id 0 and
labelled `"null"` in the pivot; an id in the object-to-class map is recorded
with its id preserved and labelled with the owning class's resolved name; a
class-object reference is dropped from the accumulated output. -/
theorem reference_classification_total_ordered
    (objMap : Map Nat Nat) (primMap : Map Nat PrimitiveArrayType)
    (classes : Map Nat EzClass) (r : Option Nat) :
    (∃! b : RefBucket, bucketApplies objMap primMap classes r b)
    ∧ bucketApplies objMap primMap classes r
        (bucketOf (classifyRef objMap primMap classes r))
    ∧ (r = none →
        refPush objMap primMap classes r = [.objectReference 0]
        ∧ objRefTypeLabel classes objMap 0 = some "null")
    ∧ (∀ rid cid cls, r = some rid → rid ≠ 0 → lookup objMap rid = some cid →
        lookup classes cid = some cls →
        refPush objMap primMap classes r = [.objectReference rid]
        ∧ objRefTypeLabel classes objMap rid = some cls.name)
    ∧ (∀ rid, r = some rid → lookup objMap rid = none → lookup primMap rid = none →
        refPush objMap primMap classes r = []) := by
  refine ⟨⟨bucketOf (classifyRef objMap primMap classes r),
      (bucketApplies_iff objMap primMap classes r _).mpr rfl,
      fun b hb => (bucketApplies_iff objMap primMap classes r b).mp hb⟩,
    (bucketApplies_iff objMap primMap classes r _).mpr rfl, ?_, ?_, ?_⟩
  · rintro rfl
    exact ⟨rfl, rfl⟩
  · rintro rid cid cls rfl hne hobj hcls
    constructor
    · simp [refPush, hobj]
    · simp [objRefTypeLabel, hne, hobj, hcls]
  · rintro rid rfl hobj hprim
    cases hcls : lookup classes rid <;> simp [refPush, hobj, hprim, hcls]

/-- Witness for C2 at a concrete object-to-class map and class table: the
reference id 5 resolves to an instance of the class named `com.Foo`, id
preserved. -/
theorem reference_classification_witness :
    refPush [(5, 2)] [] [(2, ⟨2, "com.Foo", none, []⟩)] (some 5) =
      [ExtendedFieldValue.objectReference 5]
    ∧ objRefTypeLabel [(2, ⟨2, "com.Foo", none, []⟩)] [(5, 2)] 5 = some "com.Foo" :=
  (reference_classification_total_ordered [(5, 2)] []
    [(2, ⟨2, "com.Foo", none, []⟩)] (some 5)).2.2.2.1 5 2 ⟨2, "com.Foo", none, []⟩
    rfl (by decide) rfl rfl

/-- C3: before a class's batch is emitted, all of its columns are checked
for equal length against the first column's length; on any disagreement the
whole batch yields no output file (`none`), and an emitted batch is always
the full column list with all lengths equal — never a partial batch.  The
last conjunct ties the guard to the per-class emission path. -/
theorem batch_equal_length_check (cols : List Column) :
    (emitBatch cols = none ∨ emitBatch cols = some cols)
    ∧ (∀ c0 cs, cols = c0 :: cs → (∃ c ∈ cols, c.length ≠ c0.length) →
        emitBatch cols = none)
    ∧ (∀ b, emitBatch cols = some b →
        b = cols ∧ ∀ c ∈ b, ∀ c' ∈ b, c.length = c'.length)
    ∧ (∀ (classes : Map Nat EzClass) (objMap : Map Nat Nat)
        (primMap : Map Nat PrimitiveArrayType)
        (fvm : Map String (List ExtendedFieldValue)) (names : List String),
        processClass classes objMap primMap fvm names =
          (buildColumns classes objMap primMap fvm names).bind emitBatch) := by
  refine ⟨?_, ?_, ?_, fun _ _ _ _ _ => rfl⟩
  · cases cols with
    | nil => exact Or.inl rfl
    | cons c0 cs =>
      by_cases h : ((c0 :: cs).any (fun c => c.length != c0.length)) = true
      · exact Or.inl (by simp [emitBatch, h])
      · exact Or.inr (by simp [emitBatch, h])
  · rintro c0 cs rfl hex
    obtain ⟨c, hc, hne⟩ := hex
    have h : ((c0 :: cs).any (fun c => c.length != c0.length)) = true :=
      List.any_eq_true.mpr ⟨c, hc, by simpa using hne⟩
    simp [emitBatch, h]
  · intro b hb
    cases cols with
    | nil => exact Option.noConfusion hb
    | cons c0 cs =>
      by_cases h : ((c0 :: cs).any (fun c => c.length != c0.length)) = true
      · rw [show emitBatch (c0 :: cs) = none from by simp [emitBatch, h]] at hb
        exact Option.noConfusion hb
      · have hb' : b = c0 :: cs := by
          have : emitBatch (c0 :: cs) = some (c0 :: cs) := by simp [emitBatch, h]
          rw [this] at hb
          exact (Option.some.injEq _ _ ▸ hb).symm
        refine ⟨hb', ?_⟩
        subst hb'
        have hall : ∀ x ∈ c0 :: cs, x.length = c0.length := by
          intro x hx
          by_contra hxx
          exact h (List.any_eq_true.mpr ⟨x, hx, by simpa using hxx⟩)
        intro c hc c' hc'
        rw [hall c hc, hall c' hc']

/-- Witness for C3: two columns of lengths 1 and 2 make the batch drop. -/
theorem batch_equal_length_check_witness :
    emitBatch [Column.u64Col [1], Column.boolCol [true, false]] = none :=
  (batch_equal_length_check [Column.u64Col [1], Column.boolCol [true, false]]).2.1
    (Column.u64Col [1]) [Column.boolCol [true, false]] rfl
    ⟨Column.boolCol [true, false], by simp, by decide⟩

theorem lookup_mapInsert {κ ν : Type} [DecidableEq κ] (m : Map κ ν) (k k' : κ) (v : ν) :
    lookup (mapInsert m k v) k' = if k = k' then some v else lookup m k' := by
  simp [mapInsert, lookup]

theorem foldSchemas_lookup_go {α : Type} (gen : Nat → List Nat → α) :
    ∀ (insts : List (Nat × List Nat)) (m : Map Nat α) (c : Nat),
      lookup (insts.foldl (fun m i => updateSchemas gen m i.1 i.2) m) c =
        (match lookup m c with
          | some v => some v
          | none => (insts.find? (fun i => i.1 == c)).map (fun i => gen i.1 i.2)) := by
  intro insts
  induction insts with
  | nil =>
    intro m c
    cases h : lookup m c <;> simp [h]
  | cons a rest ih =>
    intro m c
    obtain ⟨ac, ab⟩ := a
    rw [List.foldl_cons, ih]
    cases hac : lookup m ac with
    | some v =>
      have hstep : updateSchemas gen m ac ab = m := by simp [updateSchemas, hac]
      rw [hstep]
      cases hc : lookup m c with
      | some w => simp
      | none =>
        have hne : (ac == c) = false := by
          by_contra hbc
          have : ac = c := by
            cases hb : ac == c
            · exact absurd hb hbc
            · exact eq_of_beq hb
          rw [this, hc] at hac
          exact Option.noConfusion hac
        simp [List.find?, hne]
    | none =>
      have hstep : updateSchemas gen m ac ab = mapInsert m ac (gen ac ab) := by
        simp [updateSchemas, hac]
      rw [hstep]
      by_cases hec : ac = c
      · subst hec
        rw [lookup_mapInsert]
        simp [hac, List.find?]
      · rw [lookup_mapInsert]
        have hne : (ac == c) = false := by
          cases hb : ac == c
          · rfl
          · exact absurd (eq_of_beq hb) hec
        simp [hec, List.find?, hne]

/-- C4: the columnar schema for a class id is computed exactly once, from
the first instance of that class encountered in the record stream — the
cached entry equals the schema generated from the stream's first matching
instance record — and processing a later instance of an already-seen class
leaves the stored schema map unchanged. -/
theorem schema_inferred_once_from_first_instance {α : Type}
    (gen : Nat → List Nat → α) (insts : List (Nat × List Nat)) (c : Nat) :
    lookup (foldSchemas gen insts) c =
      (insts.find? (fun i => i.1 == c)).map (fun i => gen i.1 i.2)
    ∧ (∀ (schemas : Map Nat α) (cid : Nat) (bytes : List Nat),
        (lookup schemas cid).isSome → updateSchemas gen schemas cid bytes = schemas) := by
  constructor
  · rw [foldSchemas, foldSchemas_lookup_go]
    simp [lookup]
  · intro schemas cid bytes h
    simp [updateSchemas, h]

/-- Witness for C4: a class id already present in the schema cache is left
unchanged by a later instance. -/
theorem schema_inferred_once_witness :
    updateSchemas (fun c (b : List Nat) => c + b.length) [(1, 5)] 1 [9, 9] = [(1, 5)] :=
  (schema_inferred_once_from_first_instance (fun c (b : List Nat) => c + b.length)
    [] 0).2 [(1, 5)] 1 [9, 9] (by decide)

/-- Counterexample to C5 as stated: a decoded reference id (42) found in
none of the three maps is NOT recorded in the field's accumulated sequence —
the field's sequence stays empty, with no sentinel-labelled entry and no
preserved id. -/
theorem unresolved_reference_dropped_cex :
    (add_instance_values [] [⟨10, FieldType.objectId⟩] [0, 0, 0, 42] 4
        [(10, "f")] [] [] []).bind (fun m => lookup m "f") = some []
    ∧ some ([] : List ExtendedFieldValue) ≠
        some [ExtendedFieldValue.objectReference 42] := by
  exact ⟨by decide, by decide⟩

/-- C5 (amended): a decoded non-null reference whose id is found in none of
the three maps is non-fatal — decoding of the instance continues with the
remaining descriptors — but the value is dropped: the field's accumulated
sequence is left unchanged (only the field's key is ensured present), with
no sentinel entry and no recorded id. -/
theorem unresolved_reference_nonfatal_dropped
    (fvm : Map String (List ExtendedFieldValue)) (fd : FieldDescriptor)
    (rest : List FieldDescriptor) (input input' : List Nat) (idSize : Nat)
    (utf8 : Map Nat String) (objMap : Map Nat Nat) (classes : Map Nat EzClass)
    (primMap : Map Nat PrimitiveArrayType) (rid : Nat)
    (hp : parse_value fd.field_type input idSize = some (.objectId (some rid), input'))
    (ho : lookup objMap rid = none) (hm : lookup primMap rid = none)
    (hc : lookup classes rid = none) :
    add_instance_values fvm (fd :: rest) input idSize utf8 objMap classes primMap =
      add_instance_values
        (mapInsert fvm ((lookup utf8 fd.name_id).getD MISSING_UTF8)
          ((lookup fvm ((lookup utf8 fd.name_id).getD MISSING_UTF8)).getD []))
        rest input' idSize utf8 objMap classes primMap := by
  simp only [add_instance_values, hp, refPush, ho, hm, hc, List.append_nil]

/-- Witness for C5 (amended) at the concrete unresolved id 42: the step
reduces to processing the remaining (empty) descriptor list with the
sequence unchanged. -/
theorem unresolved_reference_nonfatal_witness :
    add_instance_values [] [⟨10, FieldType.objectId⟩] [0, 0, 0, 42] 4
        [(10, "f")] [] [] [] =
      add_instance_values (mapInsert [] "f" []) [] [] 4 [(10, "f")] [] [] [] :=
  unresolved_reference_nonfatal_dropped [] ⟨10, FieldType.objectId⟩ [] [0, 0, 0, 42]
    [] 4 [(10, "f")] [] [] [] 42 (by decide) rfl rfl rfl

/-- Counterexample to C6 as stated: a reference to a known `int` primitive
array pivots into the batch's type column with the bare label `"int"`, not
`"int[]"`. -/
theorem prim_array_label_no_brackets_cex :
    pivotColumn [] [] [(7, PrimitiveArrayType.int)]
        [ExtendedFieldValue.primitiveArrayReference 7] =
      some (Column.structCol [7] ["int"])
    ∧ ("int" : String) ≠ "int[]" := by
  exact ⟨rfl, by decide⟩

/-- C6 (amended): for a decoded reference whose id is in the primitive-array
map, the emitted type label in the batch's type column is the bare element
primitive type name (e.g. `"int"`), with no `"[]"` suffix appended. -/
theorem prim_array_label_bare_name
    (classes : Map Nat EzClass) (objMap : Map Nat Nat)
    (primMap : Map Nat PrimitiveArrayType) (rid : Nat) (t : PrimitiveArrayType)
    (vs : List ExtendedFieldValue) (ht : lookup primMap rid = some t) :
    pivotColumn classes objMap primMap
        (ExtendedFieldValue.primitiveArrayReference rid :: vs) =
      some (Column.structCol
        ((ExtendedFieldValue.primitiveArrayReference rid :: vs).map primRefIdExtract)
        ((ExtendedFieldValue.primitiveArrayReference rid :: vs).map
          (primRefLabelExtract primMap)))
    ∧ primRefLabelExtract primMap (ExtendedFieldValue.primitiveArrayReference rid) =
        java_type_name t
    ∧ java_type_name t ≠ java_type_name t ++ "[]" := by
  refine ⟨rfl, ?_, ?_⟩
  · simp only [primRefLabelExtract, primRefTypeLabel, ht]
    cases t <;> rfl
  · cases t <;> decide

/-- Witness for C6 (amended) at a concrete `long` array id. -/
theorem prim_array_label_bare_name_witness :
    primRefLabelExtract [(3, PrimitiveArrayType.long)]
        (ExtendedFieldValue.primitiveArrayReference 3) =
      java_type_name PrimitiveArrayType.long
    ∧ java_type_name PrimitiveArrayType.long ≠
        java_type_name PrimitiveArrayType.long ++ "[]" :=
  ⟨(prim_array_label_bare_name [] [] [(3, PrimitiveArrayType.long)] 3
      PrimitiveArrayType.long [] rfl).2.1,
    (prim_array_label_bare_name [] [] [(3, PrimitiveArrayType.long)] 3
      PrimitiveArrayType.long [] rfl).2.2⟩

/-- Counterexample to C7 as stated: a field whose first observed value is
the null reference is given a dedicated nullable `Null` column type by
`generate_schema_from_type` (util.rs:141-145), not the two-column id/type
struct. -/
theorem null_field_schema_null_column_cex :
    generate_schema_from_type (FieldValue.objectId none) "f" [] [] [] =
      [⟨"instance_id", DataT.uint64, false⟩, ⟨"f", DataT.nullT, true⟩]
    ∧ DataT.nullT ≠ DataT.structIdType := by
  exact ⟨rfl, by decide⟩

/-- C7 (amended): in `generate_schema_from_type`, a field whose first
observed value is a resolved instance reference or a resolved
primitive-array reference maps to the two-column id/type struct; a field
whose first observed value is the null reference maps to a dedicated
nullable `Null` column; a class-object or unresolved reference contributes
no column at all. -/
theorem schema_reference_field_cases
    (objMap : Map Nat Nat) (classes : Map Nat EzClass)
    (primMap : Map Nat PrimitiveArrayType) (name : String) (rid : Nat) :
    ((lookup objMap rid).isSome →
      generate_schema_from_type (.objectId (some rid)) name objMap classes primMap =
        [⟨"instance_id", .uint64, false⟩, ⟨name, .structIdType, false⟩])
    ∧ (lookup objMap rid = none → (lookup primMap rid).isSome →
      generate_schema_from_type (.objectId (some rid)) name objMap classes primMap =
        [⟨"instance_id", .uint64, false⟩, ⟨name, .structIdType, false⟩])
    ∧ generate_schema_from_type (.objectId none) name objMap classes primMap =
        [⟨"instance_id", .uint64, false⟩, ⟨name, .nullT, true⟩]
    ∧ (lookup objMap rid = none → lookup primMap rid = none →
      generate_schema_from_type (.objectId (some rid)) name objMap classes primMap =
        [⟨"instance_id", .uint64, false⟩]) := by
  refine ⟨?_, ?_, rfl, ?_⟩
  · intro h
    obtain ⟨cid, hc⟩ := Option.isSome_iff_exists.mp h
    simp [generate_schema_from_type, hc]
  · intro ho h
    obtain ⟨t, ht⟩ := Option.isSome_iff_exists.mp h
    simp [generate_schema_from_type, ho, ht]
  · intro ho hp
    cases hc : lookup classes rid <;>
      simp [generate_schema_from_type, ho, hp, hc]

/-- Witness for C7 (amended) at a concrete resolved instance reference. -/
theorem schema_reference_field_cases_witness :
    generate_schema_from_type (FieldValue.objectId (some 5)) "f" [(5, 2)] [] [] =
      [⟨"instance_id", DataT.uint64, false⟩, ⟨"f", DataT.structIdType, false⟩] :=
  (schema_reference_field_cases [(5, 2)] [] [] "f" 5).1 (by decide)

theorem pass2_unknown_class_none {α : Type} (gen : Nat → List Nat → α)
    (classes : Map Nat EzClass) (cifd : Map Nat (List FieldDescriptor))
    (idSize : Nat) (utf8 : Map Nat String) (objMap : Map Nat Nat)
    (primMap : Map Nat PrimitiveArrayType) :
    ∀ (subs : List SubRecord) (acc : Pass2Acc α) (oid cid : Nat) (bytes : List Nat),
      SubRecord.instanceRec oid cid bytes ∈ subs → lookup classes cid = none →
      pass2 gen classes cifd idSize utf8 objMap primMap subs acc = none := by
  intro subs
  induction subs with
  | nil =>
    intro acc oid cid bytes hmem _
    cases hmem
  | cons s rest ih =>
    intro acc oid cid bytes hmem hcls
    cases hmem with
    | head => simp [pass2, pass2Sub, hcls]
    | tail _ hmem' =>
      cases hs : pass2Sub gen classes cifd idSize utf8 objMap primMap acc s with
      | none => simp [pass2, hs]
      | some acc' =>
        simp only [pass2, hs]
        exact ih acc' oid cid bytes hmem' hcls

/-- Counterexample to C8 as stated: an object-array record whose class id
(99) is absent from the class table is NOT fatal in the projection pass —
its arm of the source is commented out, so the run completes and produces
its (empty) output. -/
theorem object_array_unknown_class_nonfatal_cex :
    runProjection (fun _ _ => ([] : List String)) [] [] 4 [] [] []
      [SubRecord.objectArray 5 99] (fun x => x) = some [] := rfl

/-- C8 (amended): an instance record whose class id is absent from the
Identity Index's class table is fatal for the projection run — pass 2
returns `none` and no output is produced for the run; object-array records,
by contrast, are skipped by the projection pass without any class lookup. -/
theorem unknown_class_instance_fatal {α : Type} (gen : Nat → List Nat → α)
    (classes : Map Nat EzClass) (cifd : Map Nat (List FieldDescriptor))
    (idSize : Nat) (utf8 : Map Nat String) (objMap : Map Nat Nat)
    (primMap : Map Nat PrimitiveArrayType) (subs : List SubRecord)
    (schemaNames : α → List String) :
    (∀ oid cid bytes, SubRecord.instanceRec oid cid bytes ∈ subs →
      lookup classes cid = none →
      runProjection gen classes cifd idSize utf8 objMap primMap subs schemaNames = none)
    ∧ (∀ (acc : Pass2Acc α) (oid acid : Nat),
        pass2Sub gen classes cifd idSize utf8 objMap primMap acc
          (.objectArray oid acid) = some acc) := by
  constructor
  · intro oid cid bytes hmem hcls
    have h := pass2_unknown_class_none gen classes cifd idSize utf8 objMap primMap
      subs ⟨[], []⟩ oid cid bytes hmem hcls
    simp [runProjection, h]
  · intro acc oid acid
    rfl

/-- Witness for C8 (amended): a run whose only record is an instance of the
unknown class 9 aborts with no output. -/
theorem unknown_class_instance_fatal_witness :
    runProjection (fun _ _ => ([] : List String)) [] [] 4 [] [] []
      [SubRecord.instanceRec 1 9 []] (fun x => x) = none :=
  (unknown_class_instance_fatal (fun _ _ => ([] : List String)) [] [] 4 [] [] []
    [SubRecord.instanceRec 1 9 []] (fun x => x)).1 1 9 [] (by simp) rfl

theorem pass1Run_eq_foldl :
    ∀ (rs : List Record) (st st' : IdentityIndex),
      Pass1Run st rs st' → st' = rs.foldl pass1Record st := by
  intro rs
  induction rs with
  | nil =>
    intro st st' h
    cases h
    rfl
  | cons r rest ih =>
    intro st st' h
    cases h with
    | cons _ _ _ _ h' => exact ih _ _ h'

/-- C9: the identity-resolution pass is a deterministic function of the
record stream — any two runs of the pass-1 loop from fresh maps over the
same records end in identical maps, and that common result is `pass1`. -/
theorem identity_pass_deterministic (records : List Record)
    (s1 s2 : IdentityIndex) (h1 : Pass1Run emptyIndex records s1)
    (h2 : Pass1Run emptyIndex records s2) : s1 = s2 ∧ s1 = pass1 records := by
  have e1 := pass1Run_eq_foldl records _ _ h1
  have e2 := pass1Run_eq_foldl records _ _ h2
  exact ⟨e1.trans e2.symm, e1⟩

def crs9 : List Record :=
  [Record.utf8Rec 1 "com/Foo", Record.loadClassRec ⟨2, 1⟩,
    Record.heapDumpSegment [SubRecord.classRec ⟨2, none, [⟨3, FieldType.int⟩]⟩,
      SubRecord.instanceRec 10 2 [0, 0, 0, 1]]]

/-- Witness for C9: two concrete runs over the same three-record stream
produce the same Identity Index. -/
theorem identity_pass_deterministic_witness : pass1 crs9 = pass1 crs9 := by
  have h : Pass1Run emptyIndex crs9 (pass1 crs9) :=
    Pass1Run.cons _ _ _ _ (Pass1Run.cons _ _ _ _
      (Pass1Run.cons _ _ _ _ (Pass1Run.nil _)))
  exact (identity_pass_deterministic crs9 (pass1 crs9) (pass1 crs9) h h).1

/-- C10: in the pivot, the emitted column kind and the per-element
extraction are selected solely by the first accumulated value of the field
(`field_val_vec[0]`); every later element whose variant differs from the
first is mapped through the extraction's catch-all arm to a default (0,
`false`, the 0.0 bit pattern, or the label `"null"`) instead of raising an
error. -/
theorem pivot_first_value_dominates (classes : Map Nat EzClass)
    (objMap : Map Nat Nat) (primMap : Map Nat PrimitiveArrayType)
    (v0 w : ExtendedFieldValue) (vs : List ExtendedFieldValue) :
    (∀ x, v0 = .fieldValue (.int x) →
      pivotColumn classes objMap primMap (v0 :: vs) =
        some (.i32Col ((v0 :: vs).map i32Extract))
      ∧ ((∀ y, w ≠ .fieldValue (.int y)) → i32Extract w = 0))
    ∧ (∀ x, v0 = .fieldValue (.long x) →
      pivotColumn classes objMap primMap (v0 :: vs) =
        some (.i64Col ((v0 :: vs).map i64Extract))
      ∧ ((∀ y, w ≠ .fieldValue (.long y)) → i64Extract w = 0))
    ∧ (∀ x, v0 = .fieldValue (.boolean x) →
      pivotColumn classes objMap primMap (v0 :: vs) =
        some (.boolCol ((v0 :: vs).map boolExtract))
      ∧ ((∀ y, w ≠ .fieldValue (.boolean y)) → boolExtract w = false))
    ∧ (∀ x, v0 = .fieldValue (.char x) →
      pivotColumn classes objMap primMap (v0 :: vs) =
        some (.u16Col ((v0 :: vs).map u16Extract))
      ∧ ((∀ y, w ≠ .fieldValue (.char y)) → u16Extract w = 0))
    ∧ (∀ x, v0 = .fieldValue (.float x) →
      pivotColumn classes objMap primMap (v0 :: vs) =
        some (.f32Col ((v0 :: vs).map f32Extract))
      ∧ ((∀ y, w ≠ .fieldValue (.float y)) → f32Extract w = 0))
    ∧ (∀ x, v0 = .fieldValue (.double x) →
      pivotColumn classes objMap primMap (v0 :: vs) =
        some (.f64Col ((v0 :: vs).map f64Extract))
      ∧ ((∀ y, w ≠ .fieldValue (.double y)) → f64Extract w = 0))
    ∧ (∀ x, v0 = .fieldValue (.byte x) →
      pivotColumn classes objMap primMap (v0 :: vs) =
        some (.i8Col ((v0 :: vs).map i8Extract))
      ∧ ((∀ y, w ≠ .fieldValue (.byte y)) → i8Extract w = 0))
    ∧ (∀ x, v0 = .fieldValue (.short x) →
      pivotColumn classes objMap primMap (v0 :: vs) =
        some (.i16Col ((v0 :: vs).map i16Extract))
      ∧ ((∀ y, w ≠ .fieldValue (.short y)) → i16Extract w = 0))
    ∧ (∀ o, v0 = .fieldValue (.objectId o) →
      pivotColumn classes objMap primMap (v0 :: vs) =
        ((v0 :: vs).mapM u64Extract).map Column.u64Col
      ∧ ((∀ y, w ≠ .fieldValue (.objectId y)) → u64Extract w = some 0))
    ∧ (∀ rid, v0 = .objectReference rid →
      pivotColumn classes objMap primMap (v0 :: vs) =
        ((v0 :: vs).mapM (objRefLabelExtract classes objMap)).map
          (fun ts => Column.structCol ((v0 :: vs).map objRefIdExtract) ts)
      ∧ ((∀ y, w ≠ .objectReference y) →
          objRefIdExtract w = 0
          ∧ objRefLabelExtract classes objMap w = some "null"))
    ∧ (∀ rid, v0 = .primitiveArrayReference rid →
      pivotColumn classes objMap primMap (v0 :: vs) =
        some (.structCol ((v0 :: vs).map primRefIdExtract)
          ((v0 :: vs).map (primRefLabelExtract primMap)))
      ∧ ((∀ y, w ≠ .primitiveArrayReference y) →
          primRefIdExtract w = 0 ∧ primRefLabelExtract primMap w = "null")) := by
  refine ⟨?_, ?_, ?_, ?_, ?_, ?_, ?_, ?_, ?_, ?_, ?_⟩
  · rintro x rfl
    refine ⟨rfl, fun hw => ?_⟩
    cases w with
    | fieldValue fv => cases fv <;> first | rfl | exact absurd rfl (hw _)
    | objectReference y => rfl
    | primitiveArrayReference y => rfl
  · rintro x rfl
    refine ⟨rfl, fun hw => ?_⟩
    cases w with
    | fieldValue fv => cases fv <;> first | rfl | exact absurd rfl (hw _)
    | objectReference y => rfl
    | primitiveArrayReference y => rfl
  · rintro x rfl
    refine ⟨rfl, fun hw => ?_⟩
    cases w with
    | fieldValue fv => cases fv <;> first | rfl | exact absurd rfl (hw _)
    | objectReference y => rfl
    | primitiveArrayReference y => rfl
  · rintro x rfl
    refine ⟨rfl, fun hw => ?_⟩
    cases w with
    | fieldValue fv => cases fv <;> first | rfl | exact absurd rfl (hw _)
    | objectReference y => rfl
    | primitiveArrayReference y => rfl
  · rintro x rfl
    refine ⟨rfl, fun hw => ?_⟩
    cases w with
    | fieldValue fv => cases fv <;> first | rfl | exact absurd rfl (hw _)
    | objectReference y => rfl
    | primitiveArrayReference y => rfl
  · rintro x rfl
    refine ⟨rfl, fun hw => ?_⟩
    cases w with
    | fieldValue fv => cases fv <;> first | rfl | exact absurd rfl (hw _)
    | objectReference y => rfl
    | primitiveArrayReference y => rfl
  · rintro x rfl
    refine ⟨rfl, fun hw => ?_⟩
    cases w with
    | fieldValue fv => cases fv <;> first | rfl | exact absurd rfl (hw _)
    | objectReference y => rfl
    | primitiveArrayReference y => rfl
  · rintro x rfl
    refine ⟨rfl, fun hw => ?_⟩
    cases w with
    | fieldValue fv => cases fv <;> first | rfl | exact absurd rfl (hw _)
    | objectReference y => rfl
    | primitiveArrayReference y => rfl
  · rintro o rfl
    refine ⟨rfl, fun hw => ?_⟩
    cases w with
    | fieldValue fv => cases fv <;> first | rfl | exact absurd rfl (hw _)
    | objectReference y => rfl
    | primitiveArrayReference y => rfl
  · rintro rid rfl
    refine ⟨rfl, fun hw => ?_⟩
    cases w with
    | fieldValue fv => exact ⟨rfl, rfl⟩
    | objectReference y => exact absurd rfl (hw y)
    | primitiveArrayReference y => exact ⟨rfl, rfl⟩
  · rintro rid rfl
    refine ⟨rfl, fun hw => ?_⟩
    cases w with
    | fieldValue fv => exact ⟨rfl, rfl⟩
    | objectReference y => exact ⟨rfl, rfl⟩
    | primitiveArrayReference y => exact absurd rfl (hw y)

/-- Witness for C10: an int-headed field whose second value is a boolean
pivots into an Int32 column with the mismatch silently defaulted to 0. -/
theorem pivot_first_value_witness :
    pivotColumn [] [] []
      [ExtendedFieldValue.fieldValue (FieldValue.int 3),
        ExtendedFieldValue.fieldValue (FieldValue.boolean true)] =
      some (Column.i32Col [3, 0])
    ∧ i32Extract (ExtendedFieldValue.fieldValue (FieldValue.boolean true)) = 0 := by
  have h := pivot_first_value_dominates [] [] []
    (.fieldValue (.int 3)) (.fieldValue (.boolean true)) [.fieldValue (.boolean true)]
  obtain ⟨hcol, hdef⟩ := h.1 3 rfl
  refine ⟨hcol.trans (by decide), hdef ?_⟩
  intro y hy
  simp at hy

end HeapDiver
